import Mathlib

/-!
Shallow embedding of the leaderboard service (Backend/routes.py, Backend/models.py,
Backend/limiter.py) and verification of its specification.

The durable store holds three tables (models.py): `users`, `game_sessions`,
`leaderboard`.  The three endpoints of routes.py — `submit_score`,
`get_leaderboard`, `get_player_rank` — are modelled as pure functions on a
`DBState`, together with a `CacheState` mirroring the Redis helpers
(`get_redis` returning `None` when the backend is unreachable, and
`cache_get` / `cache_set` / `cache_invalidate` degrading to no-ops).
Transaction failure is modelled by an optional fault-injection point
(`FailStep`): the code path that raises inside the `try` block rolls back and
surfaces a generic 500.  Commit/rollback/cache-invalidation ordering is
recorded as an event trace.
-/

namespace Leaderboard

/-- A row of the `users` table (models.py `User`). -/
structure User where
  id : Nat
  username : String
  deriving Repr, DecidableEq

/-- A row of the `game_sessions` table (models.py `GameSession`). -/
structure GameSession where
  user_id : Nat
  score : Int
  game_mode : String
  deriving Repr, DecidableEq

/-- A row of the `leaderboard` table (models.py `Leaderboard`). -/
structure LBEntry where
  user_id : Nat
  total_score : Int
  rank : Int
  deriving Repr, DecidableEq

/-- The durable relational store: the three tables. -/
structure DBState where
  users : List User
  game_sessions : List GameSession
  leaderboard : List LBEntry
  deriving Repr, DecidableEq

/-- Request body for `POST /submit` (schemas.py `ScoreSubmission`). -/
structure ScoreSubmission where
  user_id : Nat
  score : Int
  game_mode : String
  deriving Repr, DecidableEq

/-- Response of `POST /submit` (schemas.py `SubmitResponse`). -/
structure SubmitResponse where
  message : String
  user_id : Nat
  new_total_score : Int
  new_rank : Int
  deriving Repr, DecidableEq

/-- One entry of the top-10 response (schemas.py `LeaderboardEntry`). -/
structure LeaderboardEntry where
  rank : Nat
  user_id : Nat
  username : String
  total_score : Int
  deriving Repr, DecidableEq

/-- Response of `GET /top` (schemas.py `LeaderboardResponse`); `updated_at`
is the generation timestamp, modelled as an abstract clock value. -/
structure LeaderboardResponse where
  leaderboard : List LeaderboardEntry
  updated_at : Nat
  deriving Repr, DecidableEq

/-- Response of `GET /rank/{id}` (schemas.py `PlayerRankResponse`). -/
structure PlayerRankResponse where
  user_id : Nat
  username : String
  total_score : Int
  rank : Int
  deriving Repr, DecidableEq

/-- Client-facing error outcomes (HTTPException status codes raised in
routes.py, plus slowapi's 429). -/
inductive ApiError where
  | notFound
  | internalError
  | rateLimited
  deriving Repr, DecidableEq

/-- Cache keys used by routes.py: the literal string `leaderboard:top10` and
the per-player `rank:{user_id}`. -/
inductive CacheKey where
  | top10
  | rank (uid : Nat)
  deriving Repr, DecidableEq

/-- Events recorded by a submission, in order: transaction commit, rollback,
and cache invalidation (with the keys passed to `cache_invalidate`). -/
inductive DbEvent where
  | commit
  | rollback
  | invalidate (keys : List CacheKey)
  deriving Repr, DecidableEq

/-- The Redis cache.  `avail = false` models `get_redis` returning `None`
(backend unreachable), in which case every cache helper degrades to a no-op.
The two key families of routes.py are kept typed: the `leaderboard:top10`
value and the `rank:{uid}` values.  TTL expiry simply clears an entry and is
equivalent to the entry being absent, so it needs no separate clock here. -/
structure CacheState where
  avail : Bool
  top10 : Option LeaderboardResponse
  ranks : List (Nat × PlayerRankResponse)
  deriving Repr, DecidableEq

/-- `cache_get("leaderboard:top10")`: `None` on miss or when Redis is down. -/
def cacheGetTop (c : CacheState) : Option LeaderboardResponse :=
  if c.avail then c.top10 else none

/-- `cache_set("leaderboard:top10", v)`: no-op when Redis is down. -/
def cacheSetTop (c : CacheState) (v : LeaderboardResponse) : CacheState :=
  if c.avail then { c with top10 := some v } else c

/-- `cache_get(f"rank:{uid}")`. -/
def cacheGetRank (c : CacheState) (uid : Nat) : Option PlayerRankResponse :=
  if c.avail then (c.ranks.find? (fun p => p.1 = uid)).map (fun p => p.2) else none

/-- `cache_set(f"rank:{uid}", v)`. -/
def cacheSetRank (c : CacheState) (uid : Nat) (v : PlayerRankResponse) : CacheState :=
  if c.avail then { c with ranks := (uid, v) :: c.ranks.filter (fun p => ¬ p.1 = uid) }
  else c

/-- Delete one key from the typed cache. -/
def cacheDeleteOne (c : CacheState) : CacheKey → CacheState
  | .top10 => { c with top10 := none }
  | .rank uid => { c with ranks := c.ranks.filter (fun p => ¬ p.1 = uid) }

/-- `cache_invalidate(*keys)`: deletes the given keys; no-op when Redis is
down. -/
def cacheInvalidate (c : CacheState) (ks : List CacheKey) : CacheState :=
  if c.avail then ks.foldl cacheDeleteOne c else c

/-- `SELECT id, username FROM users WHERE id = :uid` (first row). -/
def userLookup (st : DBState) (uid : Nat) : Option User :=
  st.users.find? (fun u => u.id = uid)

/-- `SELECT ... FROM leaderboard WHERE user_id = :uid` (first row). -/
def lbLookup (lb : List LBEntry) (uid : Nat) : Option LBEntry :=
  lb.find? (fun e => e.user_id = uid)

/-- `SELECT COUNT(*) FROM leaderboard WHERE total_score > :t`. -/
def countGT (lb : List LBEntry) (t : Int) : Nat :=
  (lb.filter (fun e => t < e.total_score)).length

/-- `INSERT INTO leaderboard (user_id, total_score, rank) VALUES (:uid, :score, 0)
ON CONFLICT (user_id) DO UPDATE SET total_score = leaderboard.total_score + :score`:
`user_id` is unique, so a conflicting insert increments the existing row. -/
def upsert (lb : List LBEntry) (uid : Nat) (score : Int) : List LBEntry :=
  if lb.any (fun e => e.user_id = uid) then
    lb.map (fun e => if e.user_id = uid then { e with total_score := e.total_score + score } else e)
  else
    lb ++ [⟨uid, score, 0⟩]

/-- `UPDATE leaderboard SET rank = :rank WHERE user_id = :uid`. -/
def updateRank (lb : List LBEntry) (uid : Nat) (r : Int) : List LBEntry :=
  lb.map (fun e => if e.user_id = uid then { e with rank := r } else e)

/-- Sum of a player's `game_sessions.score` values (the ledger view). -/
def sessionSum (st : DBState) (uid : Nat) : Int :=
  ((st.game_sessions.filter (fun s => s.user_id = uid)).map (fun s => s.score)).sum

/-- The player's aggregate total as stored; 0 when the player has no
leaderboard row. -/
def totalOf (st : DBState) (uid : Nat) : Int :=
  ((lbLookup st.leaderboard uid).map (fun e => e.total_score)).getD 0

/-- Ledger/aggregate consistency: every player's stored total equals the sum
of that player's session scores (absent row ↔ total 0). -/
def consistent (st : DBState) : Prop :=
  ∀ uid : Nat, totalOf st uid = sessionSum st uid

/-- Fault-injection points inside `submit_score`'s transaction: each names
one statement after the existence check that may raise (modelling a backend
failure at that step). -/
inductive FailStep where
  | insertSession
  | upsertEntry
  | fetchTotal
  | countRank
  | updateRankStep
  | commitTx
  deriving Repr, DecidableEq

/-- Result of a submission: the committed DB state, the cache state, the
response or error, and the trace of commit/rollback/invalidate events. -/
structure SubmitOutcome where
  db : DBState
  cache : CacheState
  result : Except ApiError SubmitResponse
  events : List DbEvent
  deriving Repr

/-- `submit_score` (routes.py): verify the user, insert the session row,
upsert the leaderboard row, re-fetch the total, recompute this player's rank
as count-strictly-greater + 1, store it, commit, then invalidate the two
cache keys.  A fault at any step after the existence check takes the
`except Exception` path: `db.rollback()` (the pending writes are discarded,
so the committed state is the original) and a generic 500. -/
def submitScore (fl : Option FailStep) (st : DBState) (c : CacheState)
    (p : ScoreSubmission) : SubmitOutcome :=
  match userLookup st p.user_id with
  | none => ⟨st, c, .error .notFound, []⟩
  | some _ =>
    if fl = some .insertSession then ⟨st, c, .error .internalError, [.rollback]⟩ else
    let pend1 : DBState :=
      { st with game_sessions := st.game_sessions ++ [⟨p.user_id, p.score, p.game_mode⟩] }
    if fl = some .upsertEntry then ⟨st, c, .error .internalError, [.rollback]⟩ else
    let pend2 : DBState := { pend1 with leaderboard := upsert pend1.leaderboard p.user_id p.score }
    if fl = some .fetchTotal then ⟨st, c, .error .internalError, [.rollback]⟩ else
    let new_total : Int := ((lbLookup pend2.leaderboard p.user_id).map
      (fun e => e.total_score)).getD p.score
    if fl = some .countRank then ⟨st, c, .error .internalError, [.rollback]⟩ else
    let new_rank : Int := Int.ofNat (countGT pend2.leaderboard new_total) + 1
    if fl = some .updateRankStep then ⟨st, c, .error .internalError, [.rollback]⟩ else
    let pend3 : DBState := { pend2 with leaderboard := updateRank pend2.leaderboard p.user_id new_rank }
    if fl = some .commitTx then ⟨st, c, .error .internalError, [.rollback]⟩ else
    ⟨pend3,
     cacheInvalidate c [.top10, .rank p.user_id],
     .ok ⟨"Score submitted successfully", p.user_id, new_total, new_rank⟩,
     [.commit, .invalidate [.top10, .rank p.user_id]]⟩

/-- `FROM leaderboard l JOIN users u ON u.id = l.user_id`: each leaderboard
row paired with its player's username (rows without a matching user drop
out, as in an inner join). -/
def joinRows (st : DBState) : List (LBEntry × String) :=
  st.leaderboard.filterMap (fun e => (userLookup st e.user_id).map (fun u => (e, u.username)))

/-- `ORDER BY l.total_score DESC`. -/
def sortDesc (rows : List (LBEntry × String)) : List (LBEntry × String) :=
  rows.mergeSort (fun a b => decide (b.1.total_score ≤ a.1.total_score))

/-- The `enumerate(rows)` comprehension building `LeaderboardEntry` values
with `rank = idx + 1`. -/
def annotate : Nat → List (LBEntry × String) → List LeaderboardEntry
  | _, [] => []
  | i, (e, name) :: rest => ⟨i + 1, e.user_id, name, e.total_score⟩ :: annotate (i + 1) rest

/-- The database part of `get_leaderboard`: top 10 by descending total with
1-based dense positions, stamped with the computation time. -/
def dbLeaderboard (st : DBState) (now : Nat) : LeaderboardResponse :=
  ⟨annotate 0 ((sortDesc (joinRows st)).take 10), now⟩

/-- `get_leaderboard` (routes.py): serve from cache on hit, otherwise compute
from the durable store and repopulate the cache. -/
def getLeaderboard (st : DBState) (c : CacheState) (now : Nat) :
    LeaderboardResponse × CacheState :=
  match cacheGetTop c with
  | some r => (r, c)
  | none =>
    let resp := dbLeaderboard st now
    (resp, cacheSetTop c resp)

/-- The database part of `get_player_rank`: the stored total joined with the
username, and the rank freshly computed by the correlated subquery
`(SELECT COUNT(*) + 1 FROM leaderboard WHERE total_score > l.total_score)`. -/
def dbPlayerRank (st : DBState) (uid : Nat) : Option PlayerRankResponse :=
  (lbLookup st.leaderboard uid).bind (fun e =>
    (userLookup st uid).map (fun u =>
      ⟨uid, u.username, e.total_score, Int.ofNat (countGT st.leaderboard e.total_score) + 1⟩))

/-- `get_player_rank` (routes.py): serve from cache on hit; otherwise query
the store (404 when the player has no leaderboard row) and cache the result. -/
def getPlayerRank (st : DBState) (c : CacheState) (uid : Nat) :
    Except ApiError PlayerRankResponse × CacheState :=
  match cacheGetRank c uid with
  | some r => (.ok r, c)
  | none =>
    match dbPlayerRank st uid with
    | none => (.error .notFound, c)
    | some resp => (.ok resp, cacheSetRank c uid resp)

/-- Modelled from slowapi, which is an external dependency (limiter.py only
configures `Limiter(key_func=get_remote_address)` and routes.py attaches
`"5/minute"` / `"60/minute"`): a request is allowed when fewer than `lim`
requests from the same address fall inside the trailing `window` seconds of
the request history. -/
def allowRequest (lim window : Nat) (hist : List (String × Nat)) (ip : String)
    (now : Nat) : Bool :=
  (hist.filter (fun h => h.1 = ip && now - h.2 < window)).length < lim

/-- `submit_score` behind its `@limiter.limit("5/minute")` decorator. -/
def submitScoreLimited (hist : List (String × Nat)) (ip : String) (now : Nat)
    (fl : Option FailStep) (st : DBState) (c : CacheState) (p : ScoreSubmission) :
    SubmitOutcome :=
  if allowRequest 5 60 hist ip now then submitScore fl st c p
  else ⟨st, c, .error .rateLimited, []⟩

/-- `get_leaderboard` behind its `@limiter.limit("60/minute")` decorator. -/
def getLeaderboardLimited (hist : List (String × Nat)) (ip : String) (now : Nat)
    (st : DBState) (c : CacheState) (clock : Nat) :
    Except ApiError LeaderboardResponse × CacheState :=
  if allowRequest 60 60 hist ip now then
    let r := getLeaderboard st c clock
    (.ok r.1, r.2)
  else (.error .rateLimited, c)

/-- `get_player_rank` behind its `@limiter.limit("60/minute")` decorator. -/
def getPlayerRankLimited (hist : List (String × Nat)) (ip : String) (now : Nat)
    (st : DBState) (c : CacheState) (uid : Nat) :
    Except ApiError PlayerRankResponse × CacheState :=
  if allowRequest 60 60 hist ip now then getPlayerRank st c uid
  else (.error .rateLimited, c)

/-- The success path of `submit_score` written out: pending writes followed by
commit, response and post-commit cache invalidation. -/
def submitOk (st : DBState) (c : CacheState) (p : ScoreSubmission) : SubmitOutcome :=
  let pend1 : DBState :=
    { st with game_sessions := st.game_sessions ++ [⟨p.user_id, p.score, p.game_mode⟩] }
  let pend2 : DBState := { pend1 with leaderboard := upsert pend1.leaderboard p.user_id p.score }
  let new_total : Int := ((lbLookup pend2.leaderboard p.user_id).map
    (fun e => e.total_score)).getD p.score
  let new_rank : Int := Int.ofNat (countGT pend2.leaderboard new_total) + 1
  let pend3 : DBState := { pend2 with leaderboard := updateRank pend2.leaderboard p.user_id new_rank }
  ⟨pend3,
   cacheInvalidate c [.top10, .rank p.user_id],
   .ok ⟨"Score submitted successfully", p.user_id, new_total, new_rank⟩,
   [.commit, .invalidate [.top10, .rank p.user_id]]⟩

theorem submit_notFound_eq (fl : Option FailStep) (st : DBState) (c : CacheState)
    (p : ScoreSubmission) (h : userLookup st p.user_id = none) :
    submitScore fl st c p = ⟨st, c, .error .notFound, []⟩ := by
  simp [submitScore, h]

theorem submit_fault_eq (s : FailStep) (st : DBState) (c : CacheState)
    (p : ScoreSubmission) (u : User) (hu : userLookup st p.user_id = some u) :
    submitScore (some s) st c p = ⟨st, c, .error .internalError, [.rollback]⟩ := by
  cases s <;> simp [submitScore, hu]

theorem submit_none_eq (st : DBState) (c : CacheState) (p : ScoreSubmission)
    (u : User) (hu : userLookup st p.user_id = some u) :
    submitScore none st c p = submitOk st c p := by
  simp [submitScore, submitOk, hu]

theorem submit_ok_inv (fl : Option FailStep) (st : DBState) (c : CacheState)
    (p : ScoreSubmission) (r : SubmitResponse)
    (h : (submitScore fl st c p).result = .ok r) :
    fl = none ∧ ∃ u, userLookup st p.user_id = some u ∧
      submitScore fl st c p = submitOk st c p := by
  rcases hu : userLookup st p.user_id with _ | u
  · rw [submit_notFound_eq fl st c p hu] at h
    exact absurd h (by simp)
  · rcases fl with _ | s
    · exact ⟨rfl, u, rfl, submit_none_eq st c p u hu⟩
    · rw [submit_fault_eq s st c p u hu] at h
      exact absurd h (by simp)

/-- C4: Submitting a score for a player absent from the player directory
fails with NotFound and performs no writes: the database and cache are
returned exactly as they were, with an empty transaction-event trace. -/
theorem submitScore_unknown_player_notFound_no_writes
    (fl : Option FailStep) (st : DBState) (c : CacheState) (p : ScoreSubmission)
    (h : userLookup st p.user_id = none) :
    submitScore fl st c p = ⟨st, c, .error .notFound, []⟩ :=
  submit_notFound_eq fl st c p h

theorem submitScore_unknown_player_notFound_no_writes_witness :
    userLookup ⟨[⟨1, "alice"⟩], [], []⟩ 9 = none ∧
    submitScore none ⟨[⟨1, "alice"⟩], [], []⟩ ⟨true, none, []⟩ ⟨9, 5, "solo"⟩ =
      ⟨⟨[⟨1, "alice"⟩], [], []⟩, ⟨true, none, []⟩, .error .notFound, []⟩ :=
  ⟨by decide,
   submitScore_unknown_player_notFound_no_writes none ⟨[⟨1, "alice"⟩], [], []⟩
     ⟨true, none, []⟩ ⟨9, 5, "solo"⟩ (by decide)⟩

/-- C5: If any statement of the submission transaction after the existence
check fails, the whole transaction rolls back: the database and cache are
exactly as before the call, the trace shows only the rollback, and the
caller gets the generic internal error, never the raw backend failure. -/
theorem submitScore_step_failure_rolls_back
    (s : FailStep) (st : DBState) (c : CacheState) (p : ScoreSubmission)
    (hu : (userLookup st p.user_id).isSome) :
    submitScore (some s) st c p = ⟨st, c, .error .internalError, [.rollback]⟩ := by
  rcases Option.isSome_iff_exists.mp hu with ⟨u, hu'⟩
  exact submit_fault_eq s st c p u hu'

theorem submitScore_step_failure_rolls_back_witness :
    (userLookup ⟨[⟨1, "alice"⟩], [], []⟩ 1).isSome = true ∧
    submitScore (some .upsertEntry) ⟨[⟨1, "alice"⟩], [], []⟩ ⟨true, none, []⟩ ⟨1, 5, "solo"⟩ =
      ⟨⟨[⟨1, "alice"⟩], [], []⟩, ⟨true, none, []⟩, .error .internalError, [.rollback]⟩ :=
  ⟨by decide,
   submitScore_step_failure_rolls_back .upsertEntry ⟨[⟨1, "alice"⟩], [], []⟩
     ⟨true, none, []⟩ ⟨1, 5, "solo"⟩ (by decide)⟩

theorem lbLookup_updateRank (lb : List LBEntry) (uid : Nat) (r : Int) (v : Nat) :
    lbLookup (updateRank lb uid r) v =
      (lbLookup lb v).map (fun e => if e.user_id = uid then { e with rank := r } else e) := by
  unfold lbLookup updateRank
  rw [List.find?_map]
  have hp : ((fun e : LBEntry => decide (e.user_id = v)) ∘
      (fun e => if e.user_id = uid then { e with rank := r } else e)) =
      (fun e : LBEntry => decide (e.user_id = v)) := by
    funext e
    by_cases h : e.user_id = uid <;> simp [h]
  rw [hp]

theorem lookup_total_updateRank (lb : List LBEntry) (uid : Nat) (r : Int) (v : Nat) :
    (lbLookup (updateRank lb uid r) v).map (fun e => e.total_score) =
      (lbLookup lb v).map (fun e => e.total_score) := by
  rw [lbLookup_updateRank, Option.map_map]
  congr 1
  funext e
  show (if e.user_id = uid then { e with rank := r } else e).total_score = e.total_score
  split <;> rfl

theorem countGT_updateRank (lb : List LBEntry) (uid : Nat) (r : Int) (t : Int) :
    countGT (updateRank lb uid r) t = countGT lb t := by
  unfold countGT updateRank
  rw [List.filter_map, List.length_map]
  have hp : ((fun e : LBEntry => decide (t < e.total_score)) ∘
      (fun e => if e.user_id = uid then { e with rank := r } else e)) =
      (fun e : LBEntry => decide (t < e.total_score)) := by
    funext e
    by_cases h : e.user_id = uid <;> simp [h]
  rw [hp]

theorem lookup_total_upsert_self (lb : List LBEntry) (uid : Nat) (s : Int) :
    (lbLookup (upsert lb uid s) uid).map (fun e => e.total_score) =
      some (((lbLookup lb uid).map (fun e => e.total_score)).getD 0 + s) := by
  unfold upsert lbLookup
  by_cases h : lb.any (fun e => e.user_id = uid)
  · simp only [if_pos h, List.find?_map]
    have hp : ((fun e : LBEntry => decide (e.user_id = uid)) ∘
        (fun e => if e.user_id = uid then { e with total_score := e.total_score + s } else e)) =
        (fun e : LBEntry => decide (e.user_id = uid)) := by
      funext e
      by_cases he : e.user_id = uid <;> simp [he]
    rw [hp]
    obtain ⟨x, hx, px⟩ := List.any_eq_true.mp h
    have hsome : (lb.find? (fun e => decide (e.user_id = uid))).isSome :=
      List.find?_isSome.mpr ⟨x, hx, px⟩
    obtain ⟨e, he⟩ := Option.isSome_iff_exists.mp hsome
    have pe : e.user_id = uid := by simpa using List.find?_some he
    rw [he]
    simp [pe]
  · simp only [if_neg h]
    have hnone : lb.find? (fun e => decide (e.user_id = uid)) = none := by
      rw [List.find?_eq_none]
      intro x hx px
      exact h (List.any_eq_true.mpr ⟨x, hx, px⟩)
    rw [List.find?_append, hnone]
    simp

theorem lbLookup_upsert_other (lb : List LBEntry) (uid : Nat) (s : Int) (v : Nat)
    (hv : ¬ v = uid) :
    lbLookup (upsert lb uid s) v = lbLookup lb v := by
  unfold upsert lbLookup
  by_cases h : lb.any (fun e => e.user_id = uid)
  · simp only [if_pos h, List.find?_map]
    have hp : ((fun e : LBEntry => decide (e.user_id = v)) ∘
        (fun e => if e.user_id = uid then { e with total_score := e.total_score + s } else e)) =
        (fun e : LBEntry => decide (e.user_id = v)) := by
      funext e
      by_cases he : e.user_id = uid <;> simp [he]
    rw [hp]
    rcases hf : lb.find? (fun e => decide (e.user_id = v)) with _ | e
    · rw [hf]
      rfl
    · rw [hf]
      have pe : e.user_id = v := by simpa using List.find?_some hf
      have hne : ¬ e.user_id = uid := by
        rw [pe]
        exact hv
      simp [hne]
  · simp only [if_neg h, List.find?_append]
    have hne : ¬ uid = v := fun hh => hv hh.symm
    have : List.find? (fun e : LBEntry => decide (e.user_id = v)) [⟨uid, s, 0⟩] = none := by
      simp [List.find?, hne]
    rw [this]
    simp

theorem sessionSum_append (us : List User) (gs : List GameSession) (lb : List LBEntry)
    (x : GameSession) (v : Nat) :
    sessionSum ⟨us, gs ++ [x], lb⟩ v =
      sessionSum ⟨us, gs, lb⟩ v + (if x.user_id = v then x.score else 0) := by
  unfold sessionSum
  simp only [List.filter_append, List.map_append, List.sum_append]
  by_cases hx : x.user_id = v <;> simp [List.filter, hx]

theorem totalOf_submitOk (st : DBState) (c : CacheState) (p : ScoreSubmission) (v : Nat) :
    totalOf (submitOk st c p).db v =
      if v = p.user_id then totalOf st p.user_id + p.score else totalOf st v := by
  unfold totalOf submitOk
  simp only []
  rw [lookup_total_updateRank]
  by_cases hv : v = p.user_id
  · subst hv
    rw [lookup_total_upsert_self]
    simp
  · rw [lbLookup_upsert_other _ _ _ _ hv, if_neg hv]

theorem sessionSum_submitOk (st : DBState) (c : CacheState) (p : ScoreSubmission) (v : Nat) :
    sessionSum (submitOk st c p).db v =
      sessionSum st v + (if p.user_id = v then p.score else 0) := by
  have hgs : (submitOk st c p).db.game_sessions =
      st.game_sessions ++ [⟨p.user_id, p.score, p.game_mode⟩] := rfl
  unfold sessionSum
  rw [hgs]
  simp only [List.filter_append, List.map_append, List.sum_append]
  by_cases hx : p.user_id = v <;> simp [List.filter, hx]

/-- C1: Every submission preserves ledger/aggregate consistency: if each
player's stored total equals the sum of that player's session scores, the
same holds after any `submit_score` call, and on success the response's
`new_total_score` is the submitter's post-update stored total. -/
theorem submitScore_preserves_ledger_aggregate_consistency
    (fl : Option FailStep) (st : DBState) (c : CacheState) (p : ScoreSubmission)
    (h : consistent st) :
    consistent (submitScore fl st c p).db ∧
    ∀ r : SubmitResponse, (submitScore fl st c p).result = .ok r →
      r.new_total_score = totalOf (submitScore fl st c p).db p.user_id := by
  rcases hu : userLookup st p.user_id with _ | u
  · rw [submit_notFound_eq fl st c p hu]
    exact ⟨h, fun r hr => absurd hr (by simp)⟩
  · rcases fl with _ | s
    · rw [submit_none_eq st c p u hu]
      constructor
      · intro v
        rw [totalOf_submitOk st c p v, sessionSum_submitOk st c p v]
        by_cases hv : v = p.user_id
        · subst hv
          simp [h p.user_id]
        · rw [if_neg hv, if_neg (fun hh => hv hh.symm), h v, add_zero]
      · intro r hr
        have hr' : (submitOk st c p).result = .ok r := hr
        unfold submitOk at hr'
        simp only [] at hr'
        have hres := Except.ok.inj hr'
        rw [totalOf_submitOk st c p p.user_id, if_pos rfl]
        rw [← hres]
        simp only []
        unfold totalOf
        rw [lookup_total_upsert_self]
        simp
    · rw [submit_fault_eq s st c p u hu]
      exact ⟨h, fun r hr => absurd hr (by simp)⟩

theorem submitScore_preserves_ledger_aggregate_consistency_witness :
    consistent ⟨[⟨1, "alice"⟩], [], []⟩ ∧
    (consistent (submitScore none ⟨[⟨1, "alice"⟩], [], []⟩ ⟨true, none, []⟩ ⟨1, 500, "solo"⟩).db ∧
      ∀ r : SubmitResponse,
        (submitScore none ⟨[⟨1, "alice"⟩], [], []⟩ ⟨true, none, []⟩ ⟨1, 500, "solo"⟩).result = .ok r →
        r.new_total_score =
          totalOf (submitScore none ⟨[⟨1, "alice"⟩], [], []⟩ ⟨true, none, []⟩ ⟨1, 500, "solo"⟩).db 1) :=
  ⟨fun _ => rfl,
   submitScore_preserves_ledger_aggregate_consistency none ⟨[⟨1, "alice"⟩], [], []⟩
     ⟨true, none, []⟩ ⟨1, 500, "solo"⟩ (fun _ => rfl)⟩

/-- C3: On a successful submission, the returned rank — also the rank stored
on the submitter's leaderboard row — is one plus the number of leaderboard
rows whose total strictly exceeds the submitter's new total, evaluated on
the post-upsert table; ties under this rule share a rank. -/
theorem submitScore_rank_count_strictly_greater
    (fl : Option FailStep) (st : DBState) (c : CacheState) (p : ScoreSubmission)
    (r : SubmitResponse) (h : (submitScore fl st c p).result = .ok r) :
    r.new_rank = Int.ofNat (countGT (submitScore fl st c p).db.leaderboard r.new_total_score) + 1 ∧
    (∃ e, lbLookup (submitScore fl st c p).db.leaderboard p.user_id = some e ∧
      e.total_score = r.new_total_score ∧ e.rank = r.new_rank) ∧
    ∀ e ∈ (submitScore fl st c p).db.leaderboard, e.total_score = r.new_total_score →
      Int.ofNat (countGT (submitScore fl st c p).db.leaderboard e.total_score) + 1 = r.new_rank := by
  obtain ⟨-, u, hu, heq⟩ := submit_ok_inv fl st c p r h
  rw [heq] at h ⊢
  have hr' : (submitOk st c p).result = .ok r := h
  unfold submitOk at hr'
  simp only [] at hr'
  have hres := Except.ok.inj hr'
  subst hres
  have hdb : (submitOk st c p).db.leaderboard =
      updateRank (upsert st.leaderboard p.user_id p.score) p.user_id
        (Int.ofNat (countGT (upsert st.leaderboard p.user_id p.score)
          (((lbLookup (upsert st.leaderboard p.user_id p.score) p.user_id).map
            (fun e => e.total_score)).getD p.score)) + 1) := rfl
  rw [hdb]
  simp only []
  obtain ⟨e2, he2, hte2⟩ := Option.map_eq_some'.mp
    (lookup_total_upsert_self st.leaderboard p.user_id p.score)
  have hu2 : e2.user_id = p.user_id := by simpa using List.find?_some he2
  have hT : (((lbLookup (upsert st.leaderboard p.user_id p.score) p.user_id).map
      (fun e => e.total_score)).getD p.score) = e2.total_score := by
    rw [he2]
    rfl
  refine ⟨?_, ?_, ?_⟩
  · rw [countGT_updateRank]
  · refine ⟨{ e2 with rank := _ }, ?_, ?_, rfl⟩
    · rw [lbLookup_updateRank, he2]
      simp [hu2]
    · simpa using hT.symm
  · intro e _ ht
    rw [ht, countGT_updateRank]

theorem submitScore_rank_count_strictly_greater_witness :
    ((submitScore none ⟨[⟨1, "a"⟩, ⟨2, "b"⟩], [], [⟨2, 700, 1⟩]⟩ ⟨true, none, []⟩
        ⟨1, 500, "solo"⟩).result = .ok ⟨"Score submitted successfully", 1, 500, 2⟩) ∧
    ((⟨"Score submitted successfully", 1, 500, 2⟩ : SubmitResponse).new_rank =
      Int.ofNat (countGT (submitScore none ⟨[⟨1, "a"⟩, ⟨2, "b"⟩], [], [⟨2, 700, 1⟩]⟩
        ⟨true, none, []⟩ ⟨1, 500, "solo"⟩).db.leaderboard 500) + 1 ∧
    (∃ e, lbLookup (submitScore none ⟨[⟨1, "a"⟩, ⟨2, "b"⟩], [], [⟨2, 700, 1⟩]⟩
        ⟨true, none, []⟩ ⟨1, 500, "solo"⟩).db.leaderboard 1 = some e ∧
      e.total_score = 500 ∧ e.rank = 2) ∧
    ∀ e ∈ (submitScore none ⟨[⟨1, "a"⟩, ⟨2, "b"⟩], [], [⟨2, 700, 1⟩]⟩
        ⟨true, none, []⟩ ⟨1, 500, "solo"⟩).db.leaderboard, e.total_score = 500 →
      Int.ofNat (countGT (submitScore none ⟨[⟨1, "a"⟩, ⟨2, "b"⟩], [], [⟨2, 700, 1⟩]⟩
        ⟨true, none, []⟩ ⟨1, 500, "solo"⟩).db.leaderboard e.total_score) + 1 = 2) :=
  ⟨rfl,
   submitScore_rank_count_strictly_greater none ⟨[⟨1, "a"⟩, ⟨2, "b"⟩], [], [⟨2, 700, 1⟩]⟩
     ⟨true, none, []⟩ ⟨1, 500, "solo"⟩ ⟨"Score submitted successfully", 1, 500, 2⟩ rfl⟩

/-- C8: A successful submission invalidates exactly the cached top-10 key
and the submitter's cached rank key, and only after the commit: the event
trace is commit followed by the invalidation of those two keys. -/
theorem submitScore_invalidates_after_commit
    (fl : Option FailStep) (st : DBState) (c : CacheState) (p : ScoreSubmission)
    (r : SubmitResponse) (h : (submitScore fl st c p).result = .ok r) :
    (submitScore fl st c p).events = [.commit, .invalidate [.top10, .rank p.user_id]] ∧
    (submitScore fl st c p).cache = cacheInvalidate c [.top10, .rank p.user_id] := by
  obtain ⟨-, u, hu, heq⟩ := submit_ok_inv fl st c p r h
  rw [heq]
  exact ⟨rfl, rfl⟩

theorem submitScore_invalidates_after_commit_witness :
    ((submitScore none ⟨[⟨1, "a"⟩], [], []⟩ ⟨true, none, []⟩ ⟨1, 5, "solo"⟩).result =
      .ok ⟨"Score submitted successfully", 1, 5, 1⟩) ∧
    ((submitScore none ⟨[⟨1, "a"⟩], [], []⟩ ⟨true, none, []⟩ ⟨1, 5, "solo"⟩).events =
      [.commit, .invalidate [.top10, .rank 1]] ∧
    (submitScore none ⟨[⟨1, "a"⟩], [], []⟩ ⟨true, none, []⟩ ⟨1, 5, "solo"⟩).cache =
      cacheInvalidate ⟨true, none, []⟩ [.top10, .rank 1]) :=
  ⟨rfl,
   submitScore_invalidates_after_commit none ⟨[⟨1, "a"⟩], [], []⟩ ⟨true, none, []⟩
     ⟨1, 5, "solo"⟩ ⟨"Score submitted successfully", 1, 5, 1⟩ rfl⟩

theorem filter_ne_updateRank (lb : List LBEntry) (uid : Nat) (r : Int) :
    (updateRank lb uid r).filter (fun e => ¬ e.user_id = uid) =
      lb.filter (fun e => ¬ e.user_id = uid) := by
  unfold updateRank
  rw [List.filter_map]
  have hp : ((fun e : LBEntry => decide ¬ e.user_id = uid) ∘
      (fun e => if e.user_id = uid then { e with rank := r } else e)) =
      (fun e : LBEntry => decide ¬ e.user_id = uid) := by
    funext e
    by_cases h : e.user_id = uid <;> simp [h]
  rw [hp]
  have : ∀ e ∈ lb.filter (fun e : LBEntry => decide ¬ e.user_id = uid),
      (if e.user_id = uid then { e with rank := r } else e) = e := by
    intro e he
    have := List.of_mem_filter he
    simp at this
    rw [if_neg this]
  calc (lb.filter (fun e : LBEntry => decide ¬ e.user_id = uid)).map
        (fun e => if e.user_id = uid then { e with rank := r } else e)
      = (lb.filter (fun e : LBEntry => decide ¬ e.user_id = uid)).map id :=
        List.map_congr_left this
    _ = _ := List.map_id _

theorem filter_ne_upsert (lb : List LBEntry) (uid : Nat) (s : Int) :
    (upsert lb uid s).filter (fun e => ¬ e.user_id = uid) =
      lb.filter (fun e => ¬ e.user_id = uid) := by
  unfold upsert
  by_cases h : lb.any (fun e => e.user_id = uid)
  · rw [if_pos h, List.filter_map]
    have hp : ((fun e : LBEntry => decide ¬ e.user_id = uid) ∘
        (fun e => if e.user_id = uid then { e with total_score := e.total_score + s } else e)) =
        (fun e : LBEntry => decide ¬ e.user_id = uid) := by
      funext e
      by_cases he : e.user_id = uid <;> simp [he]
    rw [hp]
    have : ∀ e ∈ lb.filter (fun e : LBEntry => decide ¬ e.user_id = uid),
        (if e.user_id = uid then { e with total_score := e.total_score + s } else e) = e := by
      intro e he
      have := List.of_mem_filter he
      simp at this
      rw [if_neg this]
    calc (lb.filter (fun e : LBEntry => decide ¬ e.user_id = uid)).map
          (fun e => if e.user_id = uid then { e with total_score := e.total_score + s } else e)
        = (lb.filter (fun e : LBEntry => decide ¬ e.user_id = uid)).map id :=
          List.map_congr_left this
      _ = _ := List.map_id _
  · rw [if_neg h, List.filter_append]
    simp

/-- C9: A successful submission does not touch any other player's aggregate
entry (the leaderboard rows of every other player are unchanged, totals and
stored ranks alike), nor the player directory. -/
theorem submitScore_frame_other_players
    (fl : Option FailStep) (st : DBState) (c : CacheState) (p : ScoreSubmission)
    (r : SubmitResponse) (h : (submitScore fl st c p).result = .ok r) :
    (submitScore fl st c p).db.leaderboard.filter (fun e => ¬ e.user_id = p.user_id) =
      st.leaderboard.filter (fun e => ¬ e.user_id = p.user_id) ∧
    (submitScore fl st c p).db.users = st.users := by
  obtain ⟨-, u, hu, heq⟩ := submit_ok_inv fl st c p r h
  rw [heq]
  constructor
  · have hdb : (submitOk st c p).db.leaderboard =
        updateRank (upsert st.leaderboard p.user_id p.score) p.user_id
          (Int.ofNat (countGT (upsert st.leaderboard p.user_id p.score)
            (((lbLookup (upsert st.leaderboard p.user_id p.score) p.user_id).map
              (fun e => e.total_score)).getD p.score)) + 1) := rfl
    rw [hdb, filter_ne_updateRank, filter_ne_upsert]
  · rfl

theorem submitScore_frame_other_players_witness :
    ((submitScore none ⟨[⟨1, "a"⟩, ⟨2, "b"⟩], [], [⟨2, 700, 1⟩]⟩ ⟨true, none, []⟩
        ⟨1, 500, "solo"⟩).result = .ok ⟨"Score submitted successfully", 1, 500, 2⟩) ∧
    ((submitScore none ⟨[⟨1, "a"⟩, ⟨2, "b"⟩], [], [⟨2, 700, 1⟩]⟩ ⟨true, none, []⟩
        ⟨1, 500, "solo"⟩).db.leaderboard.filter (fun e => ¬ e.user_id = 1) =
      ([⟨2, 700, 1⟩] : List LBEntry).filter (fun e => ¬ e.user_id = 1) ∧
    (submitScore none ⟨[⟨1, "a"⟩, ⟨2, "b"⟩], [], [⟨2, 700, 1⟩]⟩ ⟨true, none, []⟩
        ⟨1, 500, "solo"⟩).db.users = [⟨1, "a"⟩, ⟨2, "b"⟩]) :=
  ⟨rfl,
   submitScore_frame_other_players none ⟨[⟨1, "a"⟩, ⟨2, "b"⟩], [], [⟨2, 700, 1⟩]⟩
     ⟨true, none, []⟩ ⟨1, 500, "solo"⟩ ⟨"Score submitted successfully", 1, 500, 2⟩ rfl⟩

theorem length_filterMap_of_isSome {α β : Type} (f : α → Option β) :
    ∀ l : List α, (∀ a ∈ l, (f a).isSome) → (l.filterMap f).length = l.length
  | [], _ => rfl
  | a :: t, h => by
    obtain ⟨b, hb⟩ := Option.isSome_iff_exists.mp (h a (List.mem_cons_self a t))
    rw [List.filterMap_cons, hb]
    simp only [List.length_cons]
    rw [length_filterMap_of_isSome f t (fun x hx => h x (List.mem_cons_of_mem a hx))]

theorem annotate_length (l : List (LBEntry × String)) : ∀ i, (annotate i l).length = l.length := by
  induction l with
  | nil => intro i; rfl
  | cons r t ih =>
    intro i
    rcases r with ⟨e, name⟩
    simp [annotate, ih]

theorem annotate_map_rank (l : List (LBEntry × String)) :
    ∀ i, (annotate i l).map (fun en => en.rank) = List.range' (i + 1) l.length := by
  induction l with
  | nil => intro i; rfl
  | cons r t ih =>
    intro i
    rcases r with ⟨e, name⟩
    rw [List.length_cons, List.range'_succ]
    simp [annotate, ih (i + 1)]

theorem annotate_mem (l : List (LBEntry × String)) (en : LeaderboardEntry) :
    ∀ i, en ∈ annotate i l → ∃ r, r ∈ l ∧ en.user_id = r.1.user_id ∧
      en.total_score = r.1.total_score ∧ en.username = r.2 := by
  induction l with
  | nil => intro i h; cases h
  | cons r t ih =>
    intro i h
    rcases r with ⟨e, name⟩
    rcases h with _ | ⟨_, hmem⟩
    · exact ⟨(e, name), List.mem_cons_self _ _, rfl, rfl, rfl⟩
    · obtain ⟨r', hr', h1, h2, h3⟩ := ih (i + 1) hmem
      exact ⟨r', List.mem_cons_of_mem _ hr', h1, h2, h3⟩

theorem annotate_pairwise (l : List (LBEntry × String)) :
    ∀ i, l.Pairwise (fun a b => b.1.total_score ≤ a.1.total_score) →
      (annotate i l).Pairwise (fun a b => b.total_score ≤ a.total_score) := by
  induction l with
  | nil => intro i _; exact List.Pairwise.nil
  | cons r t ih =>
    intro i h
    rcases r with ⟨e, name⟩
    rcases h with _ | ⟨hhead, htail⟩
    refine List.Pairwise.cons ?_ (ih (i + 1) htail)
    intro b hb
    obtain ⟨r', hr', -, h2, -⟩ := annotate_mem t b (i + 1) hb
    rw [h2]
    exact hhead r' hr'

theorem sortDesc_sorted (rows : List (LBEntry × String)) :
    (sortDesc rows).Pairwise (fun a b => b.1.total_score ≤ a.1.total_score) := by
  have h := @List.sorted_mergeSort (LBEntry × String)
    (fun a b => decide (b.1.total_score ≤ a.1.total_score))
    (fun a b c hab hbc => by
      simp only [decide_eq_true_eq] at *
      exact le_trans hbc hab)
    (fun a b => by
      simp only [Bool.or_eq_true, decide_eq_true_eq]
      exact Int.le_total b.1.total_score a.1.total_score)
    rows
  exact h.imp (fun hb => of_decide_eq_true hb)

theorem sortDesc_length (rows : List (LBEntry × String)) :
    (sortDesc rows).length = rows.length :=
  List.length_mergeSort rows

theorem joinRows_length (st : DBState)
    (hjoin : ∀ e ∈ st.leaderboard, (userLookup st e.user_id).isSome) :
    (joinRows st).length = st.leaderboard.length := by
  unfold joinRows
  refine length_filterMap_of_isSome _ st.leaderboard (fun e he => ?_)
  rw [Option.isSome_map']
  exact hjoin e he

/-- The list of entries computed by `get_leaderboard`'s database query does
not depend on the generation timestamp. -/
theorem dbLeaderboard_entries_props (st : DBState) (t : Nat)
    (hjoin : ∀ e ∈ st.leaderboard, (userLookup st e.user_id).isSome) :
    (dbLeaderboard st t).leaderboard.Pairwise (fun a b => b.total_score ≤ a.total_score) ∧
    (dbLeaderboard st t).leaderboard.length = min 10 st.leaderboard.length ∧
    (dbLeaderboard st t).leaderboard.map (fun en => en.rank) =
      List.range' 1 (dbLeaderboard st t).leaderboard.length ∧
    ∀ en ∈ (dbLeaderboard st t).leaderboard, ∃ e u, e ∈ st.leaderboard ∧
      userLookup st e.user_id = some u ∧ en.user_id = e.user_id ∧
      en.total_score = e.total_score ∧ en.username = u.username := by
  refine ⟨?_, ?_, ?_, ?_⟩
  · exact annotate_pairwise _ 0
      ((sortDesc_sorted (joinRows st)).sublist (List.take_sublist 10 _))
  · show (annotate 0 ((sortDesc (joinRows st)).take 10)).length = _
    rw [annotate_length, List.length_take, sortDesc_length, joinRows_length st hjoin]
  · show (annotate 0 ((sortDesc (joinRows st)).take 10)).map (fun en => en.rank) =
      List.range' 1 (annotate 0 ((sortDesc (joinRows st)).take 10)).length
    rw [annotate_map_rank, annotate_length]
  · intro en hen
    obtain ⟨r, hr, h1, h2, h3⟩ := annotate_mem _ en 0 hen
    have hr2 : r ∈ sortDesc (joinRows st) := List.mem_of_mem_take hr
    have hr3 : r ∈ joinRows st := by
      unfold sortDesc at hr2
      exact List.mem_mergeSort.mp hr2
    obtain ⟨e, he, hfe⟩ := List.mem_filterMap.mp hr3
    obtain ⟨u, hu, hru⟩ := Option.map_eq_some'.mp hfe
    refine ⟨e, u, he, hu, ?_, ?_, ?_⟩
    · rw [h1, ← hru]
    · rw [h2, ← hru]
    · rw [h3, ← hru]

/-- Consistency of the cached top-10 key with the durable store: whenever the
cache holds a top-10 response, its entry list is the one the database query
computes from the current `leaderboard` table (only the `updated_at` stamp
may be older).  This is the system invariant maintained by commit-time
invalidation: the only writer of the `leaderboard` table is the submission
transaction, and every successful submission deletes the `leaderboard:top10`
key right after its commit. -/
def topCacheConsistent (st : DBState) (c : CacheState) : Prop :=
  ∀ r, cacheGetTop c = some r → r.leaderboard = (dbLeaderboard st 0).leaderboard

theorem cacheGetTop_setRank (c : CacheState) (uid : Nat) (v : PlayerRankResponse) :
    cacheGetTop (cacheSetRank c uid v) = cacheGetTop c := by
  unfold cacheGetTop cacheSetRank
  by_cases ha : c.avail <;> simp [ha]

theorem cacheGetTop_invalidate_pair (c : CacheState) (uid : Nat) :
    cacheGetTop (cacheInvalidate c [CacheKey.top10, CacheKey.rank uid]) = none := by
  unfold cacheInvalidate cacheGetTop cacheDeleteOne
  by_cases ha : c.avail <;> simp [ha, List.foldl]

/-- C6: `get_leaderboard` always returns entries sorted in non-increasing
total order, of length `min 10 (number of leaderboard rows)` (given that
every leaderboard row references an existing user, as the schema's foreign
key guarantees), with 1-based consecutive positions reflecting list order
and each entry carrying its player's display name and stored total.  This
holds on the cache-miss path and on a cache hit alike, given the top-cache
consistency invariant [[topCacheConsistent]] — and that invariant is itself
preserved by all three operations (a successful submission invalidates the
top-10 key right after commit; reads repopulate it only with the freshly
computed list), so it holds in every reachable state. -/
theorem getLeaderboard_sorted_length_positions
    (st : DBState) (c : CacheState) (now : Nat)
    (hjoin : ∀ e ∈ st.leaderboard, (userLookup st e.user_id).isSome)
    (hinv : topCacheConsistent st c) :
    ((getLeaderboard st c now).1.leaderboard.Pairwise
        (fun a b => b.total_score ≤ a.total_score) ∧
      (getLeaderboard st c now).1.leaderboard.length = min 10 st.leaderboard.length ∧
      (getLeaderboard st c now).1.leaderboard.map (fun en => en.rank) =
        List.range' 1 (getLeaderboard st c now).1.leaderboard.length ∧
      ∀ en ∈ (getLeaderboard st c now).1.leaderboard, ∃ e u, e ∈ st.leaderboard ∧
        userLookup st e.user_id = some u ∧ en.user_id = e.user_id ∧
        en.total_score = e.total_score ∧ en.username = u.username) ∧
    topCacheConsistent st (getLeaderboard st c now).2 ∧
    (∀ fl p, topCacheConsistent (submitScore fl st c p).db (submitScore fl st c p).cache) ∧
    ∀ uid, topCacheConsistent st (getPlayerRank st c uid).2 := by
  have hprops := dbLeaderboard_entries_props st 0 hjoin
  refine ⟨?_, ?_, ?_, ?_⟩
  · rcases hhit : cacheGetTop c with _ | r
    · have h1 : (getLeaderboard st c now).1 = dbLeaderboard st now := by
        simp [getLeaderboard, hhit]
      rw [h1]
      exact hprops
    · have h1 : (getLeaderboard st c now).1 = r := by
        simp [getLeaderboard, hhit]
      rw [h1, hinv r hhit]
      exact hprops
  · rcases hhit : cacheGetTop c with _ | r
    · intro r2 hr2
      have h2 : (getLeaderboard st c now).2 = cacheSetTop c (dbLeaderboard st now) := by
        simp [getLeaderboard, hhit]
      rw [h2] at hr2
      unfold cacheSetTop cacheGetTop at hr2
      by_cases ha : c.avail
      · simp [ha] at hr2
        rw [← hr2]
        rfl
      · simp [ha] at hr2
    · have h2 : (getLeaderboard st c now).2 = c := by
        simp [getLeaderboard, hhit]
      rw [h2]
      exact hinv
  · intro fl p
    rcases hu : userLookup st p.user_id with _ | u
    · rw [submit_notFound_eq fl st c p hu]
      exact hinv
    · rcases fl with _ | s
      · rw [submit_none_eq st c p u hu]
        intro r2 hr2
        rw [show (submitOk st c p).cache =
          cacheInvalidate c [CacheKey.top10, CacheKey.rank p.user_id] from rfl,
          cacheGetTop_invalidate_pair] at hr2
        cases hr2
      · rw [submit_fault_eq s st c p u hu]
        exact hinv
  · intro uid
    have h2 : cacheGetTop (getPlayerRank st c uid).2 = cacheGetTop c := by
      unfold getPlayerRank
      rcases hcr : cacheGetRank c uid with _ | r
      · rcases hdp : dbPlayerRank st uid with _ | v
        · simp [hcr, hdp]
        · simp [hcr, hdp, cacheGetTop_setRank]
      · simp [hcr]
    intro r2 hr2
    rw [h2] at hr2
    exact hinv r2 hr2

/-- Concrete state for the top-10 witness: two players with totals 500 and
700. -/
def stC6 : DBState := ⟨[⟨1, "a"⟩, ⟨2, "b"⟩], [], [⟨1, 500, 1⟩, ⟨2, 700, 1⟩]⟩

/-- A cache holding a hit for the top-10 key, consistent with [[stC6]]: the
cache state left behind by an earlier top-10 read that primed it. -/
def cC6 : CacheState := (getLeaderboard stC6 ⟨true, none, []⟩ 3).2

theorem getLeaderboard_sorted_length_positions_witness :
    (∀ e ∈ stC6.leaderboard, (userLookup stC6 e.user_id).isSome) ∧
    topCacheConsistent stC6 cC6 ∧
    (((getLeaderboard stC6 cC6 7).1.leaderboard.Pairwise
        (fun a b => b.total_score ≤ a.total_score) ∧
      (getLeaderboard stC6 cC6 7).1.leaderboard.length = min 10 stC6.leaderboard.length ∧
      (getLeaderboard stC6 cC6 7).1.leaderboard.map (fun en => en.rank) =
        List.range' 1 (getLeaderboard stC6 cC6 7).1.leaderboard.length ∧
      ∀ en ∈ (getLeaderboard stC6 cC6 7).1.leaderboard, ∃ e u, e ∈ stC6.leaderboard ∧
        userLookup stC6 e.user_id = some u ∧ en.user_id = e.user_id ∧
        en.total_score = e.total_score ∧ en.username = u.username) ∧
    topCacheConsistent stC6 (getLeaderboard stC6 cC6 7).2 ∧
    (∀ fl p, topCacheConsistent (submitScore fl stC6 cC6 p).db
      (submitScore fl stC6 cC6 p).cache) ∧
    ∀ uid, topCacheConsistent stC6 (getPlayerRank stC6 cC6 uid).2) :=
  ⟨by decide,
   fun r hr => by
     rw [← Option.some.inj hr]
     exact rfl,
   getLeaderboard_sorted_length_positions stC6 cC6 7 (by decide)
     (fun r hr => by
       rw [← Option.some.inj hr]
       exact rfl)⟩

/-- Reachable scenario for the rank-staleness analysis: two registered
players, empty ledger, empty cache. -/
def stTwoPlayers : DBState := ⟨[⟨1, "alice"⟩, ⟨2, "bob"⟩], [], []⟩

/-- Player 1 submits 500. -/
def step1 : SubmitOutcome := submitScore none stTwoPlayers ⟨true, none, []⟩ ⟨1, 500, "solo"⟩

/-- Player 1's rank is queried and therefore cached (rank 1). -/
def step2 : Except ApiError PlayerRankResponse × CacheState :=
  getPlayerRank step1.db step1.cache 1

/-- Player 2 submits 700, which invalidates only `leaderboard:top10` and
`rank:2` — not player 1's cached rank. -/
def step3 : SubmitOutcome := submitScore none step1.db step2.2 ⟨2, 700, "solo"⟩

/-- C2 counterexample: immediately after player 2's submission changed the
global ordering, `get_player_rank(1)` serves the cached pre-submission
response with rank 1, while the freshly computed rank of player 1 is 2 —
so the single-player lookup is not always globally consistent. -/
theorem getPlayerRank_cached_stale :
    (getPlayerRank step3.db step3.cache 1).1 = .ok ⟨1, "alice", 500, 1⟩ ∧
    dbPlayerRank step3.db 1 = some ⟨1, "alice", 500, 2⟩ :=
  ⟨rfl, rfl⟩

/-- C2 (amended): whenever the cached rank entry for the player is absent
(invalidated, expired, or the cache is down), `get_player_rank` returns the
stored total and a freshly computed rank — one plus the count of leaderboard
rows with strictly greater total — never consulting the stored rank field. -/
theorem getPlayerRank_fresh_on_cache_miss
    (st : DBState) (c : CacheState) (uid : Nat) (e : LBEntry) (u : User)
    (hmiss : cacheGetRank c uid = none)
    (he : lbLookup st.leaderboard uid = some e)
    (hu : userLookup st uid = some u) :
    (getPlayerRank st c uid).1 =
      .ok ⟨uid, u.username, e.total_score,
        Int.ofNat (countGT st.leaderboard e.total_score) + 1⟩ := by
  simp [getPlayerRank, dbPlayerRank, hmiss, he, hu]

theorem getPlayerRank_fresh_on_cache_miss_witness :
    cacheGetRank ⟨true, none, []⟩ 1 = none ∧
    lbLookup ([⟨1, 500, 3⟩] : List LBEntry) 1 = some ⟨1, 500, 3⟩ ∧
    userLookup ⟨[⟨1, "a"⟩], [], [⟨1, 500, 3⟩]⟩ 1 = some ⟨1, "a"⟩ ∧
    (getPlayerRank ⟨[⟨1, "a"⟩], [], [⟨1, 500, 3⟩]⟩ ⟨true, none, []⟩ 1).1 =
      .ok ⟨1, "a", 500, Int.ofNat (countGT ([⟨1, 500, 3⟩] : List LBEntry) 500) + 1⟩ :=
  ⟨rfl, by decide, by decide,
   getPlayerRank_fresh_on_cache_miss ⟨[⟨1, "a"⟩], [], [⟨1, 500, 3⟩]⟩ ⟨true, none, []⟩ 1
     ⟨1, 500, 3⟩ ⟨1, "a"⟩ rfl (by decide) (by decide)⟩

/-- C7: With the cache backend unreachable every cache operation is a no-op,
and all three operations still succeed with exactly the durable-store
results: the top-10 read returns the freshly computed list with the cache
untouched, the rank read returns the database answer (404 only when the
player has no row), and a submission's database state, response and event
trace are identical to what they would be with any cache, the cache coming
back unchanged.  No cache-connectivity failure reaches the caller. -/
theorem cache_unreachable_degrades_gracefully
    (st : DBState) (c c2 : CacheState) (now uid : Nat) (fl : Option FailStep)
    (p : ScoreSubmission) (h : c.avail = false) :
    getLeaderboard st c now = (dbLeaderboard st now, c) ∧
    getPlayerRank st c uid =
      ((match dbPlayerRank st uid with
        | some r => Except.ok r
        | none => Except.error ApiError.notFound), c) ∧
    (submitScore fl st c p).cache = c ∧
    (submitScore fl st c p).db = (submitScore fl st c2 p).db ∧
    (submitScore fl st c p).result = (submitScore fl st c2 p).result ∧
    (submitScore fl st c p).events = (submitScore fl st c2 p).events := by
  have hmiss : cacheGetTop c = none := by simp [cacheGetTop, h]
  have hmissr : cacheGetRank c uid = none := by simp [cacheGetRank, h]
  refine ⟨?_, ?_, ?_, ?_, ?_, ?_⟩
  · simp [getLeaderboard, hmiss, cacheSetTop, h]
  · rcases hdp : dbPlayerRank st uid with _ | r <;>
      simp [getPlayerRank, hmissr, hdp, cacheSetRank, h]
  · rcases hu : userLookup st p.user_id with _ | u
    · rw [submit_notFound_eq fl st c p hu]
    · rcases fl with _ | s
      · rw [submit_none_eq st c p u hu]
        show cacheInvalidate c [.top10, .rank p.user_id] = c
        simp [cacheInvalidate, h]
      · rw [submit_fault_eq s st c p u hu]
  all_goals
    rcases hu : userLookup st p.user_id with _ | u
  · rw [submit_notFound_eq fl st c p hu, submit_notFound_eq fl st c2 p hu]
  · rcases fl with _ | s
    · rw [submit_none_eq st c p u hu, submit_none_eq st c2 p u hu]
      rfl
    · rw [submit_fault_eq s st c p u hu, submit_fault_eq s st c2 p u hu]
  · rw [submit_notFound_eq fl st c p hu, submit_notFound_eq fl st c2 p hu]
  · rcases fl with _ | s
    · rw [submit_none_eq st c p u hu, submit_none_eq st c2 p u hu]
      rfl
    · rw [submit_fault_eq s st c p u hu, submit_fault_eq s st c2 p u hu]
  · rw [submit_notFound_eq fl st c p hu, submit_notFound_eq fl st c2 p hu]
  · rcases fl with _ | s
    · rw [submit_none_eq st c p u hu, submit_none_eq st c2 p u hu]
      rfl
    · rw [submit_fault_eq s st c p u hu, submit_fault_eq s st c2 p u hu]

theorem cache_unreachable_degrades_gracefully_witness :
    (⟨false, none, []⟩ : CacheState).avail = false ∧
    (getLeaderboard ⟨[⟨1, "a"⟩], [], [⟨1, 500, 1⟩]⟩ ⟨false, none, []⟩ 7 =
      (dbLeaderboard ⟨[⟨1, "a"⟩], [], [⟨1, 500, 1⟩]⟩ 7, ⟨false, none, []⟩) ∧
    getPlayerRank ⟨[⟨1, "a"⟩], [], [⟨1, 500, 1⟩]⟩ ⟨false, none, []⟩ 1 =
      ((match dbPlayerRank ⟨[⟨1, "a"⟩], [], [⟨1, 500, 1⟩]⟩ 1 with
        | some r => Except.ok r
        | none => Except.error ApiError.notFound), ⟨false, none, []⟩) ∧
    (submitScore none ⟨[⟨1, "a"⟩], [], [⟨1, 500, 1⟩]⟩ ⟨false, none, []⟩
      ⟨1, 5, "solo"⟩).cache = ⟨false, none, []⟩ ∧
    (submitScore none ⟨[⟨1, "a"⟩], [], [⟨1, 500, 1⟩]⟩ ⟨false, none, []⟩
      ⟨1, 5, "solo"⟩).db =
      (submitScore none ⟨[⟨1, "a"⟩], [], [⟨1, 500, 1⟩]⟩ ⟨true, some ⟨[], 0⟩, []⟩
        ⟨1, 5, "solo"⟩).db ∧
    (submitScore none ⟨[⟨1, "a"⟩], [], [⟨1, 500, 1⟩]⟩ ⟨false, none, []⟩
      ⟨1, 5, "solo"⟩).result =
      (submitScore none ⟨[⟨1, "a"⟩], [], [⟨1, 500, 1⟩]⟩ ⟨true, some ⟨[], 0⟩, []⟩
        ⟨1, 5, "solo"⟩).result ∧
    (submitScore none ⟨[⟨1, "a"⟩], [], [⟨1, 500, 1⟩]⟩ ⟨false, none, []⟩
      ⟨1, 5, "solo"⟩).events =
      (submitScore none ⟨[⟨1, "a"⟩], [], [⟨1, 500, 1⟩]⟩ ⟨true, some ⟨[], 0⟩, []⟩
        ⟨1, 5, "solo"⟩).events) :=
  ⟨rfl,
   cache_unreachable_degrades_gracefully ⟨[⟨1, "a"⟩], [], [⟨1, 500, 1⟩]⟩ ⟨false, none, []⟩
     ⟨true, some ⟨[], 0⟩, []⟩ 7 1 none ⟨1, 5, "solo"⟩ rfl⟩

/-- C10: Each endpoint sits behind a per-client-IP limiter — 5 requests per
minute for submissions, 60 per minute for the two reads.  A request from an
address that already has the limit of requests inside the trailing window is
rejected with the rate-limit error and changes nothing; below the limit the
endpoint behaves exactly as the unlimited operation. -/
theorem endpoints_rate_limited_per_ip
    (hist : List (String × Nat)) (ip : String) (now clock uid : Nat)
    (fl : Option FailStep) (st : DBState) (c : CacheState) (p : ScoreSubmission) :
    (5 ≤ (hist.filter (fun q => q.1 = ip && now - q.2 < 60)).length →
      submitScoreLimited hist ip now fl st c p = ⟨st, c, .error .rateLimited, []⟩) ∧
    ((hist.filter (fun q => q.1 = ip && now - q.2 < 60)).length < 5 →
      submitScoreLimited hist ip now fl st c p = submitScore fl st c p) ∧
    (60 ≤ (hist.filter (fun q => q.1 = ip && now - q.2 < 60)).length →
      getLeaderboardLimited hist ip now st c clock = (.error .rateLimited, c)) ∧
    ((hist.filter (fun q => q.1 = ip && now - q.2 < 60)).length < 60 →
      getLeaderboardLimited hist ip now st c clock =
        (.ok (getLeaderboard st c clock).1, (getLeaderboard st c clock).2)) ∧
    (60 ≤ (hist.filter (fun q => q.1 = ip && now - q.2 < 60)).length →
      getPlayerRankLimited hist ip now st c uid = (.error .rateLimited, c)) ∧
    ((hist.filter (fun q => q.1 = ip && now - q.2 < 60)).length < 60 →
      getPlayerRankLimited hist ip now st c uid = getPlayerRank st c uid) := by
  refine ⟨fun h => ?_, fun h => ?_, fun h => ?_, fun h => ?_, fun h => ?_, fun h => ?_⟩ <;>
    simp [submitScoreLimited, getLeaderboardLimited, getPlayerRankLimited, allowRequest,
      Nat.not_lt.mpr, h, Nat.not_lt.mpr h]

theorem endpoints_rate_limited_per_ip_witness :
    (5 ≤ ((List.replicate 5 ("9.9.9.9", 0)).filter
      (fun q => q.1 = "9.9.9.9" && 0 - q.2 < 60)).length) ∧
    (submitScoreLimited (List.replicate 5 ("9.9.9.9", 0)) "9.9.9.9" 0 none
      ⟨[⟨1, "a"⟩], [], []⟩ ⟨true, none, []⟩ ⟨1, 5, "solo"⟩ =
      ⟨⟨[⟨1, "a"⟩], [], []⟩, ⟨true, none, []⟩, .error .rateLimited, []⟩) ∧
    (submitScoreLimited [] "9.9.9.9" 0 none ⟨[⟨1, "a"⟩], [], []⟩ ⟨true, none, []⟩
      ⟨1, 5, "solo"⟩ = submitScore none ⟨[⟨1, "a"⟩], [], []⟩ ⟨true, none, []⟩ ⟨1, 5, "solo"⟩) ∧
    (getLeaderboardLimited (List.replicate 60 ("9.9.9.9", 0)) "9.9.9.9" 0
      ⟨[⟨1, "a"⟩], [], []⟩ ⟨true, none, []⟩ 7 = (.error .rateLimited, ⟨true, none, []⟩)) ∧
    (getLeaderboardLimited [] "9.9.9.9" 0 ⟨[⟨1, "a"⟩], [], []⟩ ⟨true, none, []⟩ 7 =
      (.ok (getLeaderboard ⟨[⟨1, "a"⟩], [], []⟩ ⟨true, none, []⟩ 7).1,
       (getLeaderboard ⟨[⟨1, "a"⟩], [], []⟩ ⟨true, none, []⟩ 7).2)) ∧
    (getPlayerRankLimited (List.replicate 60 ("9.9.9.9", 0)) "9.9.9.9" 0
      ⟨[⟨1, "a"⟩], [], []⟩ ⟨true, none, []⟩ 1 = (.error .rateLimited, ⟨true, none, []⟩)) ∧
    (getPlayerRankLimited [] "9.9.9.9" 0 ⟨[⟨1, "a"⟩], [], []⟩ ⟨true, none, []⟩ 1 =
      getPlayerRank ⟨[⟨1, "a"⟩], [], []⟩ ⟨true, none, []⟩ 1) :=
  ⟨by decide,
   (endpoints_rate_limited_per_ip (List.replicate 5 ("9.9.9.9", 0)) "9.9.9.9" 0 7 1 none
     ⟨[⟨1, "a"⟩], [], []⟩ ⟨true, none, []⟩ ⟨1, 5, "solo"⟩).1 (by decide),
   (endpoints_rate_limited_per_ip [] "9.9.9.9" 0 7 1 none
     ⟨[⟨1, "a"⟩], [], []⟩ ⟨true, none, []⟩ ⟨1, 5, "solo"⟩).2.1 (by decide),
   (endpoints_rate_limited_per_ip (List.replicate 60 ("9.9.9.9", 0)) "9.9.9.9" 0 7 1 none
     ⟨[⟨1, "a"⟩], [], []⟩ ⟨true, none, []⟩ ⟨1, 5, "solo"⟩).2.2.1 (by decide),
   (endpoints_rate_limited_per_ip [] "9.9.9.9" 0 7 1 none
     ⟨[⟨1, "a"⟩], [], []⟩ ⟨true, none, []⟩ ⟨1, 5, "solo"⟩).2.2.2.1 (by decide),
   (endpoints_rate_limited_per_ip (List.replicate 60 ("9.9.9.9", 0)) "9.9.9.9" 0 7 1 none
     ⟨[⟨1, "a"⟩], [], []⟩ ⟨true, none, []⟩ ⟨1, 5, "solo"⟩).2.2.2.2.1 (by decide),
   (endpoints_rate_limited_per_ip [] "9.9.9.9" 0 7 1 none
     ⟨[⟨1, "a"⟩], [], []⟩ ⟨true, none, []⟩ ⟨1, 5, "solo"⟩).2.2.2.2.2 (by decide)⟩

end Leaderboard
